import Mathlib

/-!
Verification of pymodelserve's worker-lifecycle and request-routing core.

Shallow embedding, in Lean 4, of the parts of `pymodelserve` that the
specification's claims are about:

* `src/pymodelserve/core/client.py`  — the in-worker dispatcher
  (`ModelClient._discover_handlers`, `ModelClient.handle_message`,
  `ModelClient.run`);
* `src/pymodelserve/core/ipc.py`     — the framed named-pipe channel
  (`NamedPipeServer.send` / `receive` / `request`);
* `src/pymodelserve/core/manager.py` — the supervisor
  (`ModelManager.request`, `ModelManager.ping`, `ModelManager._read_stderr`);
* `src/pymodelserve/config/schema.py` / `loader.py` — descriptor validation
  (`ModelConfig.validate_name`, `load_config`);
* `src/pymodelserve/discovery/finder.py` — model discovery
  (`discover_models`).

JSON values are modelled by the inductive `JValue`; Python `dict`s that
carry frames are insertion-ordered association lists with unique keys,
looked up by first match (`jget`).
-/

namespace PyModelServe

/-- A JSON value, as produced/consumed by `json.dumps` / `json.loads`
on the channel. Numbers are modelled as integers (the claims never
depend on float payloads). -/
inductive JValue where
  | str  : String → JValue
  | num  : Int → JValue
  | bool : Bool → JValue
  | null : JValue
  | arr  : List JValue → JValue
  | obj  : List (String × JValue) → JValue
deriving Repr

/-- A JSON object (a Python `dict` with string keys): insertion-ordered
association list. -/
abbrev JObj := List (String × JValue)

/-- Lookup `d.get(k)` on a Python dict modelled as first-match lookup
(keys are unique in every dict the code builds). -/
def jget (o : JObj) (k : String) : Option JValue :=
  match o with
  | [] => none
  | (k', v) :: rest => if k' = k then some v else jget rest k

/-- String access `d.get(k) == "s"`: the value under `k` when it is a
JSON string, else `none`. -/
def jgetStr (o : JObj) (k : String) : Option String :=
  match jget o k with
  | some (.str s) => some s
  | _ => none

/-- Python dict assignment `d[k] = v`: replaces the binding in place when
the key exists, otherwise appends (Python dicts preserve insertion order). -/
def dictInsert (t : List (String × α)) (k : String) (v : α) :
    List (String × α) :=
  if t.any (fun p => p.1 = k) then
    t.map (fun p => if p.1 = k then (k, v) else p)
  else
    t ++ [(k, v)]

/-- First-match association lookup (Python dict lookup). -/
def alookup (t : List (String × α)) (k : String) : Option α :=
  match t with
  | [] => none
  | (k', v) :: rest => if k' = k then some v else alookup rest k

/-! ## Python `str()` of a JSON value

`manager.py` interpolates reply values into error messages with
f-strings — the "Handler error: ..." message interpolates the value of
the reply's error field — which calls `str()` on the value. Modelled for the values that appear on the channel; string
escaping inside `repr` of nested containers is not modelled (no claim
depends on it). -/

mutual

/-- Python `str(v)` for a decoded JSON value. -/
def pyStr : JValue → String
  | .str s => s
  | .num n => toString n
  | .bool true => "True"
  | .bool false => "False"
  | .null => "None"
  | .arr xs => "[" ++ String.intercalate ", " (pyReprList xs) ++ "]"
  | .obj fs => "\x7b" ++ String.intercalate ", " (pyReprFields fs) ++ "\x7d"

/-- Python `repr(v)` (used by `str` on container elements). -/
def pyRepr : JValue → String
  | .str s => "'" ++ s ++ "'"
  | .num n => toString n
  | .bool true => "True"
  | .bool false => "False"
  | .null => "None"
  | .arr xs => "[" ++ String.intercalate ", " (pyReprList xs) ++ "]"
  | .obj fs => "\x7b" ++ String.intercalate ", " (pyReprFields fs) ++ "\x7d"

def pyReprList : List JValue → List String
  | [] => []
  | v :: vs => pyRepr v :: pyReprList vs

def pyReprFields : List (String × JValue) → List String
  | [] => []
  | (k, v) :: fs => ("'" ++ k ++ "': " ++ pyRepr v) :: pyReprFields fs

end

/-- Test that one character list is an initial segment of another. -/
def charsStart : List Char → List Char → Bool
  | _, [] => true
  | [], _ :: _ => false
  | a :: as, b :: bs => a == b && charsStart as bs

/-- Python `s.startswith(pre)`, computed on the underlying characters. -/
def pyStartswith (s pre : String) : Bool :=
  charsStart s.data pre.data

/-- Python `s[n:]`, computed on the underlying characters. -/
def pyDropChars (s : String) (n : Nat) : String :=
  String.mk (s.data.drop n)

/-! ## Worker dispatcher (`core/client.py`, `ModelClient`) -/

/-- A raised Python exception, as observed by `handle_message`'s
`except` clauses: whether it is a `TypeError` (Python's
argument-binding failures and any `TypeError` raised by the handler
body), `str(e)`, and the traceback detail lines. -/
structure PyExc where
  isTypeError : Bool
  msg : String
  tbDetail : String
deriving Repr, DecidableEq

/-- Model of `traceback.format_exc()` inside an `except` block: CPython always
begins the formatted traceback with this header line, so the result is
never empty. -/
def format_exc (e : PyExc) : String :=
  "Traceback (most recent call last):\n" ++ e.tbDetail

/-- Outcome of calling a handler with the frame's `data` unpacked as
keyword arguments: either a returned JSON value, or a raised exception
(argument-binding failures surface as a raised `TypeError`). -/
inductive HandlerResult where
  | ok  : JValue → HandlerResult
  | exc : PyExc → HandlerResult

/-- An entry of `ModelClient._handlers`. The two built-ins keep their
identity because `handle_ping` reads the handler table and
`handle_shutdown` clears `self._running`; every other handler is a
function of the request data. -/
inductive Handler where
  | builtinPing
  | builtinShutdown
  | user (f : JObj → HandlerResult)

/-- The worker-side state that `handle_message` and the `run` loop
touch: the dispatch table `self._handlers` and the `self._running`
flag. -/
structure ClientState where
  handlers : List (String × Handler)
  running : Bool

/-- Embedding of `ModelClient.get_handlers`: the registered handler names. -/
def get_handlers (st : ClientState) : List String :=
  st.handlers.map (fun p => p.1)

/-- Embedding of `ModelClient.handle_ping`: `{"status": "pong", "handlers": [...]}`. -/
def pingReply (st : ClientState) : JObj :=
  [("status", .str "pong"), ("handlers", .arr ((get_handlers st).map .str))]

/-- Invoking the handler found in the table (`handler_func(**data)`),
with its effect on the client state (`handle_shutdown` sets
`self._running = False`). -/
def callHandler (st : ClientState) (h : Handler) (data : JObj) :
    HandlerResult × ClientState :=
  match h with
  | .builtinPing => (.ok (.obj (pingReply st)), st)
  | .builtinShutdown =>
      (.ok (.obj [("status", .str "shutting_down")]), { st with running := false })
  | .user f => (f data, st)

/-- Embedding of `ModelClient.handle_message(message, data)`: look the handler up;
unknown message → error envelope listing the available handlers;
otherwise call it, wrap non-`dict` results as `{"result": value}`,
map a raised `TypeError` to `{"error": "Handler argument error: ..."}`
and any other exception to `{"error": str(e), "traceback": format_exc()}`.
Returns the reply together with the updated client state. -/
def handle_message (st : ClientState) (message : String) (data : JObj) :
    JObj × ClientState :=
  match alookup st.handlers message with
  | none =>
      ([("error", .str ("Unknown message type: " ++ message)),
        ("available_handlers", .arr ((get_handlers st).map .str))], st)
  | some h =>
      match callHandler st h data with
      | (.ok v, st') =>
          match v with
          | .obj o => (o, st')
          | v' => ([("result", v')], st')
      | (.exc e, st') =>
          if e.isTypeError then
            ([("error", .str ("Handler argument error: " ++ e.msg))], st')
          else
            ([("error", .str e.msg),
              ("traceback", .str (format_exc e))], st')

/-- One incoming request frame `{"message": ..., "data": ...}`. -/
structure ReqFrame where
  message : String
  data : JObj

/-- Embedding of `ModelClient.run`'s message loop on a finite incoming stream:
`while self._running:` receive a frame, dispatch, send the reply.
The end of the list models the supervisor closing the pipe
(`receive()` returns `None` → break). Returns the replies sent. -/
def runLoop (st : ClientState) : List ReqFrame → List JObj
  | [] => []
  | r :: rs =>
      if st.running then
        (handle_message st r.message r.data).1 ::
          runLoop (handle_message st r.message r.data).2 rs
      else []

/-! ## Handler discovery (`ModelClient._discover_handlers`)

`dir(self)` yields the attribute names of the instance in sorted order;
for each, the method is fetched with `getattr`. An attribute is
modelled by its name, whether it is callable, the `_handler_name`
attribute left by the `@handler` decorator (if any), and an identifier
for the bound method it resolves to (so that "maps to the built-in"
is expressible). The base class always contributes the callable
attributes `handle_ping` and `handle_shutdown` unless a subclass
re-defines them. -/

structure Attr where
  attrName : String
  callable : Bool
  handlerTag : Option String
  target : String
deriving Repr, DecidableEq

/-- Processing of one `dir(self)` entry by `_discover_handlers`:
skip `_`-led names and non-callables; a `_handler_name` tag registers
under that tag; otherwise a `handle_<name>` attribute registers under
`<name>` (dict assignment, so later entries overwrite earlier ones). -/
def discoverStep (table : List (String × String)) (a : Attr) :
    List (String × String) :=
  if pyStartswith a.attrName "_" then table
  else if !a.callable then table
  else
    match a.handlerTag with
    | some h => dictInsert table h a.target
    | none =>
        if pyStartswith a.attrName "handle_" then
          dictInsert table (pyDropChars a.attrName 7) a.target
        else table

/-- Embedding of `ModelClient._discover_handlers`: fold over the sorted `dir(self)`
listing, building `self._handlers` (name → bound method). -/
def _discover_handlers (attrs : List Attr) : List (String × String) :=
  attrs.foldl discoverStep []

/-- The two attributes `ModelClient` itself contributes to `dir(self)`
(when the subclass does not shadow them). -/
def baseAttrs : List Attr :=
  [⟨"handle_ping", true, none, "ModelClient.handle_ping"⟩,
   ⟨"handle_shutdown", true, none, "ModelClient.handle_shutdown"⟩]

/-! ## Supervisor (`core/manager.py`, `ModelManager`) -/

/-- Errors raised by `ModelManager.request` / reachable from `ping`:
`ModelNotStartedError` and `ModelRequestError`, each carrying its
message. -/
inductive MgrError where
  | notStarted (msg : String)
  | requestError (msg : String)
deriving Repr, DecidableEq

/-- The supervisor state consulted by `request` and `ping`:
`self._is_started`; whether `self._process` is set and `poll()` returns
`None` (process alive); whether `self._ipc` is set; and the captured
stderr lines `self._stderr_output`. -/
structure ManagerState where
  is_started : Bool
  processAlive : Bool
  ipcPresent : Bool
  stderrLines : List String

/-- Embedding of `ModelManager.is_running`:
`self._is_started and self._process is not None and self._process.poll() is None`. -/
def is_running (st : ManagerState) : Bool :=
  st.is_started && st.processAlive

/-- What `self._ipc.request(handler, data or {})` produces for the
caller: a decoded reply frame, or an `IPCError` (e.g. `receive` hit
EOF: "Connection closed by client") carrying `str(e)`. -/
inductive ChannelOutcome where
  | reply (r : JObj)
  | ipcError (msg : String)
deriving Repr

/-- Python `l[-20:]`: the last (at most) 20 elements. -/
def lastN (n : Nat) (l : List String) : List String :=
  l.drop (l.length - n)

/-- Embedding of `ModelManager.request(handler, data)`. The channel interaction is
abstracted by its outcome `ch` (the worker's reply or an in-flight
IPC failure); everything else follows the source line by line:
not started → `ModelNotStartedError`; process dead → `ModelRequestError`
with the last 20 stderr lines; no IPC object → `ModelNotStartedError`;
IPC failure → `ModelRequestError("IPC error: ...")`; reply with an
`"error"` key → `ModelRequestError("Handler error: ...")`; otherwise
the reply is returned. -/
def managerRequest (st : ManagerState) (ch : ChannelOutcome) :
    Except MgrError JObj :=
  if !st.is_started then
    .error (.notStarted "Model not started. Call start() first.")
  else if !(is_running st) then
    .error (.requestError
      ("Model process died unexpectedly.\nLast stderr:\n" ++
        String.intercalate "\n" (lastN 20 st.stderrLines)))
  else if !st.ipcPresent then
    .error (.notStarted "IPC not initialized")
  else
    match ch with
    | .ipcError m => .error (.requestError ("IPC error: " ++ m))
    | .reply r =>
        match jget r "error" with
        | some v => .error (.requestError ("Handler error: " ++ pyStr v))
        | none => .ok r

/-- The environment of one `ping` probe: how long the worker took to
answer (seconds — an observation of the environment that the code never
reads) and the channel outcome. -/
structure ProbeOutcome where
  elapsed : Nat
  outcome : ChannelOutcome

/-- Embedding of `ModelManager.ping()`: `False` when not `is_running`; otherwise
issue `self.request("ping", {})` and compare
`response.get("status") == "pong"`; any exception yields `False`. -/
def managerPing (st : ManagerState) (p : ProbeOutcome) : Bool :=
  if !(is_running st) then false
  else
    match managerRequest st p.outcome with
    | .ok r => jgetStr r "status" == some "pong"
    | .error _ => false

/-- Modelled from the spec: the claim's reading of `Ping()` —
true iff `is_running` and the worker answers a reply whose `status`
equals `"pong"` within the configured `health.timeout` (seconds). -/
def pingSpec (st : ManagerState) (p : ProbeOutcome) (healthTimeout : Nat) :
    Bool :=
  is_running st &&
    (match p.outcome with
     | .reply r => jgetStr r "status" == some "pong"
     | .ipcError _ => false) &&
    p.elapsed ≤ healthTimeout

/-- Python `str.rstrip()`: remove trailing whitespace (as done on each
captured stderr line). -/
def pyRstrip (s : String) : String :=
  String.mk (s.data.reverse.dropWhile Char.isWhitespace).reverse

/-- Embedding of `ModelManager._read_stderr`: the contents of
`self._stderr_output` after the reader thread has consumed the given
stderr lines — every line is `rstrip`ped and appended; nothing is ever
discarded. -/
def _read_stderr (lines : List String) : List String :=
  lines.map pyRstrip

/-! ## Concurrent `request` on the unlocked channel (`core/ipc.py`)

`NamedPipeServer.request` is `send` (append one frame to the
supervisor→worker FIFO) followed by `receive` (take the first frame of
the worker→supervisor FIFO). The class holds no lock — `__init__`
creates none and neither method acquires one — so when two callers run
`request` concurrently their `send` and `receive` steps interleave
freely. The worker (the echo client of `tests/test_ipc.py`) reads
requests in order and answers each with
`{"id": data["id"], "thread": data["thread"]}`. -/

/-- A caller thread of `NamedPipeServer.request`: about to send its
request, waiting for its `receive`, or finished holding the reply
`request` returned to it. -/
inductive CallerSt where
  | ready (reqData : JObj)
  | sent
  | got (reply : JObj)
deriving Repr

/-- The two FIFOs plus the two caller threads of the concurrent
scenario (`tests/test_ipc.py::test_concurrent_requests_are_serialized`
with two callers). -/
structure ConcState where
  toWorker : List JObj
  toServer : List JObj
  callerA : CallerSt
  callerB : CallerSt

/-- The echo worker's handling of one request frame. -/
def echoReply (frame : JObj) : JObj :=
  match jget frame "data" with
  | some (.obj d) => [("id", (jget d "id").getD .null),
                      ("thread", (jget d "thread").getD .null)]
  | _ => [("id", .null), ("thread", .null)]

/-- An atomic step of the system: one caller's `send`, one caller's
`receive`, or the worker consuming one request and writing its reply.
`request` contributes two separate steps per caller because the server
object holds no lock around the send+receive pair. -/
inductive CAct where
  | sendA | sendB | workerStep | recvA | recvB
deriving Repr, DecidableEq

/-- Embedding of `NamedPipeServer.send` of the frame
`{"message": "echo", "data": d}` built by `request`. -/
def sendFrame (d : JObj) : JObj :=
  [("message", .str "echo"), ("data", .obj d)]

def stepA (s : ConcState) : CallerSt → Option ConcState
  | .ready d => some { s with toWorker := s.toWorker ++ [sendFrame d],
                              callerA := .sent }
  | _ => none

def stepB (s : ConcState) : CallerSt → Option ConcState
  | .ready d => some { s with toWorker := s.toWorker ++ [sendFrame d],
                              callerB := .sent }
  | _ => none

/-- One enabled action of the interleaved execution; `none` when the
action is not enabled in the given state. -/
def concStep (s : ConcState) : CAct → Option ConcState
  | .sendA => stepA s s.callerA
  | .sendB => stepB s s.callerB
  | .workerStep =>
      match s.toWorker with
      | f :: rest =>
          some { s with toWorker := rest, toServer := s.toServer ++ [echoReply f] }
      | [] => none
  | .recvA =>
      match s.callerA, s.toServer with
      | .sent, f :: rest => some { s with callerA := .got f, toServer := rest }
      | _, _ => none
  | .recvB =>
      match s.callerB, s.toServer with
      | .sent, f :: rest => some { s with callerB := .got f, toServer := rest }
      | _, _ => none

/-- Run a schedule of atomic steps from a state. -/
def concRun (s : ConcState) : List CAct → Option ConcState
  | [] => some s
  | a :: as =>
      match concStep s a with
      | some s' => concRun s' as
      | none => none

/-- Initial state of the two-caller scenario: caller A requests id 1,
caller B requests id 2 (`thread*1000+i` ids of scenario S5, one request
each). -/
def concInit : ConcState :=
  { toWorker := [], toServer := [],
    callerA := .ready [("id", .num 1), ("thread", .num 1)],
    callerB := .ready [("id", .num 2), ("thread", .num 2)] }

/-! ## Descriptor validation (`config/schema.py`, `config/loader.py`) -/

/-- Python `str.isalnum()` per character, on the ASCII range (the range
the claim's regex `[A-Za-z0-9_-]+` speaks about). Python additionally
accepts non-ASCII alphanumerics; those are outside this model. -/
def pyIsAlnum (c : Char) : Bool := c.isAlphanum

/-- Python `str.isalnum()` on a whole string (list of characters):
non-empty and every character alphanumeric. -/
def pyIsAlnumStr (s : List Char) : Bool :=
  !s.isEmpty && s.all pyIsAlnum

/-- Embedding of `ModelConfig.validate_name`:
`v.replace("_", "").replace("-", "").isalnum()` — delete every
underscore and hyphen, then `isalnum()` on the remainder; `True` means
the name is accepted, `False` that `ValueError` is raised. -/
def validate_name (s : List Char) : Bool :=
  pyIsAlnumStr (s.filter (fun c => !(c == '_' || c == '-')))

/-- Modelled from the spec: full-match of the claim's regex
`[A-Za-z0-9_-]+` — non-empty, every character an ASCII letter, digit,
underscore or hyphen. -/
def nameRegexAccepts (s : List Char) : Bool :=
  !s.isEmpty && s.all (fun c => pyIsAlnum c || c == '_' || c == '-')

/-- Embedding of `load_config`'s validation step: `ModelConfig.model_validate`
raises on an invalid name and `load_config` re-raises every validation
failure as `ConfigError("Invalid configuration: ...")`. -/
def load_config_validate (s : List Char) : Except String (List Char) :=
  if validate_name s then .ok s
  else .error
    "Invalid configuration: Model name must be alphanumeric with underscores or hyphens"

/-! ## Model discovery (`discovery/finder.py`, `discover_models`) -/

/-- A directory in the scanned tree. `desc` models the outcome of
`find_config` + `load_config` for this directory: `none` — no
`model.yaml`/`model.yml`/`model.toml` here; `some none` — a descriptor
file is present but loading it raises; `some (some n)` — it loads as a
config whose model name is `n`. `children` are the subdirectories
(in `iterdir` order). -/
structure DirTree where
  dirName : String
  desc : Option (Option String)
  children : List DirTree
deriving Repr

/-- Instrumented scan accumulator: `models` is the `models` dict the
code builds (name → directory path of the kept config); `loadedOrder`
records every successful `load_config` in traversal order (kept or
skipped); `visited` records every directory `scan_dir` was invoked on,
as its path from the scan root (the root itself is `[]`). -/
structure ScanAcc where
  models : List (String × List String)
  loadedOrder : List (String × List String)
  visited : List (List String)
deriving Repr

mutual

/-- Embedding of `scan_dir(dir_path, depth)` of `discover_models`: stop past
`max_depth`; if the directory holds a descriptor file, record a
successfully loaded config under its name unless the name is already
taken (duplicate → warning, skipped) and do not recurse; otherwise
recurse into the non-dot-named subdirectories when `depth == 0 or
recursive`. -/
def scan_dir (maxDepth : Nat) (recursive : Bool) (path : List String)
    (depth : Nat) (t : DirTree) (acc : ScanAcc) : ScanAcc :=
  match t with
  | ⟨_, d, children⟩ =>
    if depth > maxDepth then { acc with visited := acc.visited ++ [path] }
    else
      match d with
      | some (some n) =>
          if acc.models.any (fun p => p.1 = n) then
            { acc with visited := acc.visited ++ [path],
                       loadedOrder := acc.loadedOrder ++ [(n, path)] }
          else
            { acc with visited := acc.visited ++ [path],
                       models := acc.models ++ [(n, path)],
                       loadedOrder := acc.loadedOrder ++ [(n, path)] }
      | some none => { acc with visited := acc.visited ++ [path] }
      | none =>
          if depth == 0 || recursive then
            scan_children maxDepth recursive path (depth + 1) children
              { acc with visited := acc.visited ++ [path] }
          else { acc with visited := acc.visited ++ [path] }
termination_by sizeOf t

/-- The `for subdir in dir_path.iterdir()` loop: only directories whose
name does not start with `"."` are entered. -/
def scan_children (maxDepth : Nat) (recursive : Bool) (path : List String)
    (depth : Nat) (cs : List DirTree) (acc : ScanAcc) : ScanAcc :=
  match cs with
  | [] => acc
  | c :: rest =>
      let acc' :=
        if pyStartswith c.dirName "." then acc
        else scan_dir maxDepth recursive (path ++ [c.dirName]) depth c acc
      scan_children maxDepth recursive path depth rest acc'
termination_by sizeOf cs

end

/-- Embedding of `discover_models(base_dir, recursive, max_depth)` (instrumented):
`scan_dir(base_dir, 0)` starting from an empty model map. -/
def discover_models (recursive : Bool) (maxDepth : Nat) (t : DirTree) :
    ScanAcc :=
  scan_dir maxDepth recursive [] 0 t { models := [], loadedOrder := [], visited := [] }

/-- One step of the duplicate-name policy on the `models` dict:
keep the existing binding when the name is taken, append otherwise
(exactly the branch the scan executes on a successful load). -/
def stepKF (m : List (String × List String)) (pr : String × List String) :
    List (String × List String) :=
  if m.any (fun p => p.1 = pr.1) then m else m ++ [pr]

/-- Scan invariant: the `models` dict is the keep-first fold of the
successful loads in traversal order. -/
def kfInv (acc : ScanAcc) : Prop :=
  acc.models = acc.loadedOrder.foldl stepKF []

/-- Navigation: the directory reached from `t` by following the given
child-name components. -/
def nodeAt (t : DirTree) : List String → Option DirTree
  | [] => some t
  | a :: rest =>
      match t.children.find? (fun c => c.dirName == a) with
      | some c => nodeAt c rest
      | none => none

/-- Predicate `isInit q p`: `q` is an initial segment of the path `p`. -/
def isInit : List String → List String → Bool
  | [], _ => true
  | _ :: _, [] => false
  | a :: as, b :: bs => a == b && isInit as bs

/-- No repeated names in a list. -/
def distinctNames : List String → Bool
  | [] => true
  | x :: xs => !xs.contains x && distinctNames xs

mutual

/-- Every directory has distinctly named subdirectories (true of any
real file tree), at every level. -/
def uniqNames (t : DirTree) : Bool :=
  match t with
  | ⟨_, _, children⟩ =>
      distinctNames (children.map (fun c => c.dirName)) && uniqNamesList children
termination_by sizeOf t

def uniqNamesList : List DirTree → Bool
  | [] => true
  | c :: cs => uniqNames c && uniqNamesList cs
termination_by cs => sizeOf cs

end

/-- The directories the scan can enter, ignoring the depth cut-off (an
over-approximation of `visited`): a directory is reached from
`(path, t)` either immediately, or through a child with a non-dot name
of a directory that holds no descriptor file. -/
inductive Reach : List String → DirTree → List String → Prop where
  | here (path : List String) (t : DirTree) : Reach path t path
  | child (path : List String) (t c : DirTree) (p : List String) :
      c ∈ t.children → t.desc = none → pyStartswith c.dirName "." = false →
      Reach (path ++ [c.dirName]) c p → Reach path t p

/-! ## Concrete instances used to instantiate the theorems -/

/-- A worker with a handler returning a bare string and one returning a
JSON object (scenario S2 and the object case). -/
def c3State : ClientState :=
  ⟨[("mk", .user fun _ => .ok (.str "just a string")),
    ("obj", .user fun _ => .ok (.obj [("a", .num 1)]))], true⟩

/-- A worker whose handler raises `TypeError("boom")` from its body. -/
def typeErrSt : ClientState :=
  ⟨[("fail", .user fun _ => .exc ⟨true, "boom", "boom-detail"⟩)], true⟩

/-- Scenario S4: a worker whose handler raises
`ValueError("intentional error")`, with the built-in ping registered. -/
def c2State : ClientState :=
  ⟨[("fail", .user fun _ => .exc ⟨false, "intentional error", "detail"⟩),
    ("ping", .builtinPing)], true⟩

/-- A worker with a handler that returns successfully but whose JSON
object carries an `"error"` key. -/
def c10State : ClientState :=
  ⟨[("soft", .user fun _ => .ok (.obj [("error", .str "soft failure")]))], true⟩

/-- A started supervisor with a live worker process and open channel. -/
def mgrLive : ManagerState := ⟨true, true, true, []⟩

/-- A supervisor on which `start()` has not been called. -/
def mgrFresh : ManagerState := ⟨false, false, false, []⟩

/-- A probe where the worker does answer `pong`, but only after 6
seconds — past the default `health.timeout` of 5. -/
def pongLate : ProbeOutcome := ⟨6, .reply [("status", .str "pong")]⟩

/-- A `dir(self)` listing (sorted, as `dir` returns it) of a subclass
that declares `@handler("ping")` on a method named `zz`: the base
class's `handle_ping` / `handle_shutdown` followed by the decorated
user method. -/
def overrideAttrs : List Attr :=
  [⟨"handle_ping", true, none, "ModelClient.handle_ping"⟩,
   ⟨"handle_shutdown", true, none, "ModelClient.handle_shutdown"⟩,
   ⟨"zz", true, some "ping", "Sub.zz"⟩]

/-- A directory tree exercising every discovery rule: a model dir with
a nested (never-visited) model dir below it, a dot-directory holding a
descriptor, and a deeper dir whose descriptor duplicates the name
`m1`. -/
def demoTree : DirTree :=
  ⟨"root", none,
    [⟨"a", some (some "m1"), [⟨"sub", some (some "m2"), []⟩]⟩,
     ⟨".hidden", some (some "m3"), []⟩,
     ⟨"b", none, [⟨"c", some (some "m1"), []⟩]⟩]⟩

/-! # Theorems -/

/-- C3: for every received frame `{message, data}`: an unregistered
message yields the reply
`{"error": "Unknown message type: <m>", "available_handlers": [...]}`
listing the registered handler names; a found handler whose call
returns a non-object value has it wrapped as `{"result": value}`;
a found handler whose call returns a JSON object has that object
forwarded unchanged. -/
theorem dispatch_reply_shape (st : ClientState) (m : String) (data : JObj) :
    (alookup st.handlers m = none →
      (handle_message st m data).1 =
        [("error", .str ("Unknown message type: " ++ m)),
         ("available_handlers", .arr ((get_handlers st).map .str))]) ∧
    (∀ h v st', alookup st.handlers m = some h →
      callHandler st h data = (.ok v, st') → (∀ o, v ≠ .obj o) →
      (handle_message st m data).1 = [("result", v)]) ∧
    (∀ h o st', alookup st.handlers m = some h →
      callHandler st h data = (.ok (.obj o), st') →
      (handle_message st m data).1 = o) := by
  refine ⟨?_, ?_, ?_⟩
  · intro hnone
    simp [handle_message, hnone]
  · intro h v st' hh hc hno
    cases v with
    | obj o => exact absurd rfl (hno o)
    | str s => simp [handle_message, hh, hc]
    | num n => simp [handle_message, hh, hc]
    | bool b => simp [handle_message, hh, hc]
    | null => simp [handle_message, hh, hc]
    | arr xs => simp [handle_message, hh, hc]
  · intro h o st' hh hc
    simp [handle_message, hh, hc]

/-- Witness for C3: the three dispatch outcomes on a concrete worker. -/
theorem dispatch_reply_shape_witness :
    (handle_message c3State "nope" []).1 =
      [("error", .str "Unknown message type: nope"),
       ("available_handlers", .arr [.str "mk", .str "obj"])] ∧
    (handle_message c3State "mk" []).1 = [("result", .str "just a string")] ∧
    (handle_message c3State "obj" []).1 = [("a", .num 1)] :=
  ⟨(dispatch_reply_shape c3State "nope" []).1 rfl,
   (dispatch_reply_shape c3State "mk" []).2.1 _ (.str "just a string") c3State
     rfl rfl (fun o h => by cases h),
   (dispatch_reply_shape c3State "obj" []).2.2 _ [("a", .num 1)] c3State rfl rfl⟩

/-- C2 counterexample: a handler that raises `TypeError("boom")` from
its body. The dispatcher's `except TypeError` clause catches it first,
so the reply is `{"error": "Handler argument error: boom"}` — the
`error` value is not the exception's message and there is no
`traceback` key, contradicting the claim's "for every … exception". -/
theorem handler_typeerror_reply :
    (handle_message typeErrSt "fail" []).1 =
      [("error", .str "Handler argument error: boom")] ∧
    jget (handle_message typeErrSt "fail" []).1 "traceback" = none :=
  ⟨rfl, rfl⟩

/-- C2 (amended): for every handler raising an exception that is not a
`TypeError`, the reply is the envelope `{"error": str(e), "traceback":
format_exc()}` with a non-empty traceback, and the worker keeps
serving — the loop answers a subsequent `ping`. -/
theorem handler_exception_envelope (st : ClientState) (m : String)
    (data : JObj) (f : JObj → HandlerResult) (e : PyExc)
    (hf : alookup st.handlers m = some (.user f))
    (he : f data = .exc e)
    (ht : e.isTypeError = false)
    (hrun : st.running = true)
    (hping : alookup st.handlers "ping" = some .builtinPing) :
    (handle_message st m data).1 =
      [("error", .str e.msg), ("traceback", .str (format_exc e))] ∧
    format_exc e ≠ "" ∧
    runLoop st [⟨m, data⟩, ⟨"ping", []⟩] =
      [[("error", .str e.msg), ("traceback", .str (format_exc e))],
       pingReply st] := by
  have hmsg : handle_message st m data =
      ([("error", .str e.msg), ("traceback", .str (format_exc e))], st) := by
    simp [handle_message, hf, callHandler, he, ht]
  refine ⟨by rw [hmsg], ?_, ?_⟩
  · intro hemp
    have h2 := congrArg String.data hemp
    simp [format_exc] at h2
  · have hping2 : handle_message st "ping" [] = (pingReply st, st) := by
      simp [handle_message, hping, callHandler]
    simp only [runLoop]
    simp [hmsg, hping2, hrun]

/-- Witness for C2 (amended): scenario S4's worker — the handler raises
`ValueError("intentional error")`; the reply carries that message and a
non-empty traceback, and the next `ping` is answered. -/
theorem handler_exception_envelope_witness :
    (handle_message c2State "fail" []).1 =
      [("error", .str "intentional error"),
       ("traceback",
        .str "Traceback (most recent call last):\ndetail")] ∧
    "Traceback (most recent call last):\ndetail" ≠ "" ∧
    runLoop c2State [⟨"fail", []⟩, ⟨"ping", []⟩] =
      [[("error", .str "intentional error"),
        ("traceback", .str "Traceback (most recent call last):\ndetail")],
       pingReply c2State] := by
  have h := handler_exception_envelope c2State "fail" []
    (fun _ => .exc ⟨false, "intentional error", "detail"⟩)
    ⟨false, "intentional error", "detail"⟩ rfl rfl rfl rfl rfl
  exact h

/-- C10: a handler that completes successfully but returns a JSON
object containing an `"error"` key has its reply forwarded unchanged
by the dispatcher (only non-object results are wrapped), and the
supervisor's `request` then raises `ModelRequestError` for it — at the
public interface it is indistinguishable from a handler failure. -/
theorem error_key_result_raises (st : ClientState) (m : String)
    (data : JObj) (f : JObj → HandlerResult) (o : JObj) (v : JValue)
    (mst : ManagerState)
    (hf : alookup st.handlers m = some (.user f))
    (hr : f data = .ok (.obj o))
    (he : jget o "error" = some v)
    (h1 : mst.is_started = true) (h2 : mst.processAlive = true)
    (h3 : mst.ipcPresent = true) :
    (handle_message st m data).1 = o ∧
    managerRequest mst (.reply ((handle_message st m data).1)) =
      .error (.requestError ("Handler error: " ++ pyStr v)) := by
  have hmsg : (handle_message st m data).1 = o := by
    simp [handle_message, hf, callHandler, hr]
  refine ⟨hmsg, ?_⟩
  rw [hmsg]
  simp [managerRequest, is_running, h1, h2, h3, he]

/-- Witness for C10: a handler returning `{"error": "soft failure"}`
is forwarded unchanged and makes the live supervisor raise. -/
theorem error_key_result_raises_witness :
    (handle_message c10State "soft" []).1 = [("error", .str "soft failure")] ∧
    managerRequest mgrLive (.reply ((handle_message c10State "soft" []).1)) =
      .error (.requestError "Handler error: soft failure") :=
  error_key_result_raises c10State "soft" []
    (fun _ => .ok (.obj [("error", .str "soft failure")]))
    [("error", .str "soft failure")] (.str "soft failure") mgrLive
    rfl rfl rfl rfl rfl rfl

/-- C4 counterexample: a `request` on a started supervisor with a live
worker, where the channel interaction itself fails (the worker closed
the pipe mid-request). `request` raises
`ModelRequestError("IPC error: ...")` — a raise in none of the claim's
three enumerated cases (start succeeded, the liveness poll passed, and
there is no reply frame carrying an `"error"` key). -/
theorem request_raises_on_channel_break :
    managerRequest mgrLive (.ipcError "Connection closed by client") =
      .error (.requestError "IPC error: Connection closed by client") ∧
    mgrLive.is_started = true ∧ is_running mgrLive = true :=
  ⟨rfl, rfl, rfl⟩

/-- C4 (amended): the complete case analysis of
`ModelManager.request`: not started → `ModelNotStartedError`; process
died → `ModelRequestError` with the last 20 captured stderr lines;
channel failure (`IPCError`) → `ModelRequestError("IPC error: ...")`;
reply with an `"error"` key → `ModelRequestError("Handler error:
...")`; otherwise the reply object is returned — and in no other
case does it raise. -/
theorem request_cases (st : ManagerState) (ch : ChannelOutcome) :
    (st.is_started = false →
      managerRequest st ch =
        .error (.notStarted "Model not started. Call start() first.")) ∧
    (st.is_started = true → st.processAlive = false →
      managerRequest st ch = .error (.requestError
        ("Model process died unexpectedly.\nLast stderr:\n" ++
          String.intercalate "\n" (lastN 20 st.stderrLines)))) ∧
    (∀ m, st.is_started = true → st.processAlive = true →
      st.ipcPresent = true → ch = .ipcError m →
      managerRequest st ch = .error (.requestError ("IPC error: " ++ m))) ∧
    (∀ r v, st.is_started = true → st.processAlive = true →
      st.ipcPresent = true → ch = .reply r → jget r "error" = some v →
      managerRequest st ch =
        .error (.requestError ("Handler error: " ++ pyStr v))) ∧
    (∀ r, st.is_started = true → st.processAlive = true →
      st.ipcPresent = true → ch = .reply r → jget r "error" = none →
      managerRequest st ch = .ok r) := by
  refine ⟨?_, ?_, ?_, ?_, ?_⟩
  · intro h0; simp [managerRequest, h0]
  · intro h0 h1; simp [managerRequest, is_running, h0, h1]
  · intro m h0 h1 h2 hch; subst hch
    simp [managerRequest, is_running, h0, h1, h2]
  · intro r v h0 h1 h2 hch hje; subst hch
    simp [managerRequest, is_running, h0, h1, h2, hje]
  · intro r h0 h1 h2 hch hje; subst hch
    simp [managerRequest, is_running, h0, h1, h2, hje]

/-- Witness for C4 (amended): the five request outcomes at concrete
supervisor states. -/
theorem request_cases_witness :
    managerRequest mgrFresh (.reply []) =
      .error (.notStarted "Model not started. Call start() first.") ∧
    managerRequest ⟨true, false, true, ["w1", "w2"]⟩ (.reply []) =
      .error (.requestError
        "Model process died unexpectedly.\nLast stderr:\nw1\nw2") ∧
    managerRequest mgrLive (.ipcError "broken pipe") =
      .error (.requestError "IPC error: broken pipe") ∧
    managerRequest mgrLive (.reply [("error", .str "no!")]) =
      .error (.requestError "Handler error: no!") ∧
    managerRequest mgrLive (.reply [("echoed", .str "hello")]) =
      .ok [("echoed", .str "hello")] :=
  ⟨(request_cases mgrFresh (.reply [])).1 rfl,
   (request_cases ⟨true, false, true, ["w1", "w2"]⟩ (.reply [])).2.1 rfl rfl,
   (request_cases mgrLive (.ipcError "broken pipe")).2.2.1 _ rfl rfl rfl rfl,
   (request_cases mgrLive (.reply [("error", .str "no!")])).2.2.2.1 _
     (.str "no!") rfl rfl rfl rfl rfl,
   (request_cases mgrLive (.reply [("echoed", .str "hello")])).2.2.2.2 _
     rfl rfl rfl rfl rfl⟩

/-- C5 counterexample: a live supervisor whose worker answers `pong`
after 6 seconds, against the default `health.timeout` of 5: the code's
`ping()` still returns `True` (nothing on the `ping` path consults any
timeout — `PipeTimeoutError` is defined but never raised), while the
claim's reading requires `False`. -/
theorem ping_ignores_timeout :
    managerPing mgrLive pongLate = true ∧
    pingSpec mgrLive pongLate 5 = false :=
  ⟨rfl, rfl⟩

/-- C5 (amended): `ping()` is a total Boolean probe (every exception is
caught) returning true iff the supervisor `is_running`, the channel is
up, and the worker's reply has no `"error"` key and `status = "pong"`;
the result is independent of how long the probe took — no timeout is
enforced. -/
theorem ping_characterization (st : ManagerState) (p : ProbeOutcome) :
    (managerPing st p = true ↔
      (is_running st = true ∧ st.ipcPresent = true ∧
        ∃ r, p.outcome = .reply r ∧ jget r "error" = none ∧
          jgetStr r "status" = some "pong")) ∧
    (∀ e', managerPing st ⟨e', p.outcome⟩ = managerPing st p) := by
  constructor
  · cases hs : st.is_started <;> cases ha : st.processAlive <;>
      cases hi : st.ipcPresent <;> rcases ho : p.outcome with r | msg <;>
      simp [managerPing, managerRequest, is_running, hs, ha, hi, ho] <;>
      rcases hje : jget r "error" with _ | v <;> simp [hje]
  · intro e'; rfl

/-- The stderr reader keeps one buffer entry per consumed line. -/
theorem read_stderr_length (lines : List String) :
    (_read_stderr lines).length = lines.length := by
  simp [_read_stderr]

/-- Witness for C5 (amended): a live supervisor whose worker replies
`pong` is reported healthy, and the result is unchanged when the probe
takes 99 seconds instead of 0. -/
theorem ping_characterization_witness :
    managerPing mgrLive ⟨0, .reply [("status", .str "pong")]⟩ = true ∧
    managerPing mgrLive ⟨99, .reply [("status", .str "pong")]⟩ =
      managerPing mgrLive ⟨0, .reply [("status", .str "pong")]⟩ :=
  ⟨(ping_characterization mgrLive ⟨0, .reply [("status", .str "pong")]⟩).1.mpr
    ⟨rfl, rfl, [("status", .str "pong")], rfl, rfl, rfl⟩,
   (ping_characterization mgrLive ⟨0, .reply [("status", .str "pong")]⟩).2 99⟩

/-- C7 counterexample: after the worker writes 201 stderr lines, the
supervisor's buffer retains all 201 of them — beyond the spec's
"last 200 lines" ring bound (and, by the same computation with longer
inputs, beyond any fixed bound). -/
theorem stderr_retains_201 :
    (_read_stderr (List.replicate 201 "x")).length = 201 := by
  rw [read_stderr_length, List.length_replicate]

/-- C7 (amended): `_read_stderr` appends every captured line to a plain
Python list: the number of retained lines always equals the number of
lines the worker produced, so the buffer is unbounded (no ring
discipline); only error decoration restricts itself to the last 20
lines. -/
theorem stderr_buffer_unbounded (lines : List String) :
    (_read_stderr lines).length = lines.length :=
  read_stderr_length lines

/-- C8 counterexample: the single-character name `"_"` matches the
claim's regex `[A-Za-z0-9_-]+`, but `validate_name` rejects it:
stripping underscores and hyphens leaves `""`, and `"".isalnum()` is
`False`. -/
theorem underscore_name_rejected :
    validate_name ['_'] = false ∧ nameRegexAccepts ['_'] = true := by
  decide

/-- C8 (amended): `validate_name` accepts a name iff it matches
`[A-Za-z0-9_-]+` AND contains at least one character besides `_`/`-`
(equivalently: deleting all underscores and hyphens leaves a non-empty
alphanumeric string); rejection surfaces as the wrapped
`ConfigError("Invalid configuration: ...")` from `load_config`. -/
theorem validate_name_characterization (s : List Char) :
    (validate_name s = true ↔
      (nameRegexAccepts s = true ∧ ∃ c ∈ s, ¬(c = '_' ∨ c = '-'))) ∧
    (load_config_validate s = .ok s ↔ validate_name s = true) ∧
    (validate_name s = false →
      load_config_validate s = .error
        "Invalid configuration: Model name must be alphanumeric with underscores or hyphens") := by
  have hne : ∀ l : List Char, (!l.isEmpty) = true ↔ l ≠ [] := by
    intro l; cases l <;> simp
  have hchar : ∀ c : Char,
      ((!(c == '_' || c == '-')) = true) ↔ ¬(c = '_' ∨ c = '-') := by
    intro c
    cases h1 : (c == '_') <;> cases h2 : (c == '-') <;> simp_all [beq_iff_eq]
  refine ⟨?_, ?_, ?_⟩
  · have hval : validate_name s = true ↔
        ((∃ c ∈ s, c ≠ '_' ∧ c ≠ '-') ∧
          ∀ c ∈ s, c ≠ '_' ∧ c ≠ '-' → pyIsAlnum c = true) := by
      simp only [validate_name, pyIsAlnumStr, Bool.and_eq_true, hne,
        List.all_eq_true, List.mem_filter, ne_eq, List.filter_eq_nil_iff,
        hchar]
      push_neg
      constructor
      · rintro ⟨⟨c, hc, h1, h2⟩, hall⟩
        exact ⟨⟨c, hc, h1, h2⟩, fun x hx hxp => hall x ⟨hx, hxp⟩⟩
      · rintro ⟨⟨c, hc, hc1, hc2⟩, hall⟩
        exact ⟨⟨c, hc, hc1, hc2⟩, fun x hxp => hall x hxp.1 hxp.2⟩
    have hrx : nameRegexAccepts s = true ↔
        (s ≠ [] ∧ ∀ c ∈ s, (pyIsAlnum c = true ∨ c = '_' ∨ c = '-')) := by
      simp only [nameRegexAccepts, Bool.and_eq_true, hne, List.all_eq_true,
        Bool.or_eq_true, beq_iff_eq, or_assoc]
    rw [hval, hrx]
    constructor
    · rintro ⟨⟨c, hc, hcn⟩, hall⟩
      refine ⟨⟨fun hnil => by subst hnil; exact absurd hc (List.not_mem_nil c),
        ?_⟩, ⟨c, hc, by tauto⟩⟩
      intro x hx
      by_cases hxu : x = '_' ∨ x = '-'
      · tauto
      · exact Or.inl (hall x hx (by tauto))
    · rintro ⟨⟨hnil, hall⟩, ⟨c, hc, hcn⟩⟩
      refine ⟨⟨c, hc, by tauto⟩, ?_⟩
      rintro x hx ⟨hx1, hx2⟩
      rcases hall x hx with h | h | h
      · exact h
      · exact absurd h hx1
      · exact absurd h hx2
  · by_cases h : validate_name s = true <;> simp [load_config_validate, h]
  · intro h; simp [load_config_validate, h]

/-- Witness for C8 (amended): `m1` is accepted; `-` alone is rejected
and loading fails with the wrapped configuration error. -/
theorem validate_name_characterization_witness :
    validate_name ['m', '1'] = true ∧
    load_config_validate ['-'] = .error
      "Invalid configuration: Model name must be alphanumeric with underscores or hyphens" :=
  ⟨(validate_name_characterization ['m', '1']).1.mpr
    ⟨by decide, 'm', by decide, by decide⟩,
   (validate_name_characterization ['-']).2.2 (by decide)⟩

/-! ### Handler-discovery lemmas -/

/-- Lookup `alookup` distributes over append: first hit wins. -/
theorem alookup_append (t s : List (String × α)) (k : String) :
    alookup (t ++ s) k = (alookup t k).or (alookup s k) := by
  induction t with
  | nil => simp [alookup]
  | cons p rest ih =>
      by_cases h : p.1 = k <;> simp [alookup, h, ih]

/-- Replacing the value bound to `k` leaves every key in place. -/
theorem alookup_isSome_map_replace (t : List (String × α)) (k k' : String)
    (v : α) :
    (alookup (t.map (fun p => if p.1 = k then (k, v) else p)) k').isSome =
      (alookup t k').isSome := by
  induction t with
  | nil => simp [alookup]
  | cons p rest ih =>
      simp only [List.map_cons]
      by_cases h : p.1 = k
      · rw [if_pos h]
        by_cases h2 : p.1 = k'
        · have hk : k = k' := h ▸ h2
          simp [alookup, hk, h2]
        · have hk : ¬(k = k') := fun hh => h2 (h.trans hh)
          simp [alookup, hk, h2, ih]
      · rw [if_neg h]
        by_cases h2 : p.1 = k' <;> simp [alookup, h2, ih]

/-- A pair of the list makes its key present. -/
theorem alookup_isSome_of_mem (t : List (String × α)) (p : String × α)
    (hp : p ∈ t) : (alookup t p.1).isSome = true := by
  induction t with
  | nil => simp at hp
  | cons q rest ih =>
      rw [List.mem_cons] at hp
      rcases hp with rfl | hp
      · simp [alookup]
      · by_cases hq : q.1 = p.1 <;> simp [alookup, hq, ih hp]

/-- A key is present after `dictInsert` if it was present before or
is the inserted key. -/
theorem dictInsert_key_present (t : List (String × α)) (k : String) (v : α)
    (k' : String) (h : (alookup t k').isSome = true ∨ k' = k) :
    (alookup (dictInsert t k v) k').isSome = true := by
  unfold dictInsert
  by_cases hany : t.any (fun p => p.1 = k) = true
  · rw [if_pos hany, alookup_isSome_map_replace]
    rcases h with h | rfl
    · exact h
    · simp only [List.any_eq_true, decide_eq_true_eq] at hany
      obtain ⟨p, hp, hpk⟩ := hany
      subst hpk
      exact alookup_isSome_of_mem t p hp
  · rw [if_neg hany, alookup_append]
    rcases h with h | rfl
    · rcases ho : alookup t k' with _ | w
      · rw [ho] at h; simp at h
      · simp
    · rcases ho : alookup t k' with _ | w
      · simp [alookup]
      · simp

/-- Step `discoverStep` never removes a key from the dispatch table. -/
theorem discoverStep_key_mono (table : List (String × String)) (a : Attr)
    (k : String) (h : (alookup table k).isSome = true) :
    (alookup (discoverStep table a) k).isSome = true := by
  unfold discoverStep
  split
  · exact h
  · split
    · exact h
    · rcases htag : a.handlerTag with _ | t'
      · simp only [htag]
        split
        · exact dictInsert_key_present _ _ _ _ (Or.inl h)
        · exact h
      · simp only [htag]
        exact dictInsert_key_present _ _ _ _ (Or.inl h)

/-- Folding discovery over more attributes never removes a key. -/
theorem discover_fold_key_mono (attrs : List Attr)
    (table : List (String × String)) (k : String)
    (h : (alookup table k).isSome = true) :
    (alookup (attrs.foldl discoverStep table) k).isSome = true := by
  induction attrs generalizing table with
  | nil => exact h
  | cons a rest ih => exact ih _ (discoverStep_key_mono _ _ _ h)

/-- Processing a callable, undecorated `handle_<name>` attribute
registers the key `<name>`. -/
theorem discoverStep_handle_key (table : List (String × String))
    (nm t' : String) (hnm : pyStartswith ("handle_" ++ nm) "_" = false)
    (hdot : pyStartswith ("handle_" ++ nm) "handle_" = true) :
    (alookup (discoverStep table ⟨"handle_" ++ nm, true, none, t'⟩)
      (pyDropChars ("handle_" ++ nm) 7)).isSome = true := by
  unfold discoverStep
  simp only [hnm, hdot, Bool.false_eq_true, if_false, Bool.not_true,
    if_true]
  exact dictInsert_key_present _ _ _ _ (Or.inr rfl)

/-- Folding discovery over a listing containing an attribute that
always registers the key `k` leaves `k` present. -/
theorem discover_fold_key_of_mem (attrs : List Attr) (a : Attr) (k : String)
    (ha : a ∈ attrs)
    (key : ∀ table, (alookup (discoverStep table a) k).isSome = true) :
    ∀ table, (alookup (attrs.foldl discoverStep table) k).isSome = true := by
  induction attrs with
  | nil => simp at ha
  | cons b rest ih =>
      intro table
      rw [List.mem_cons] at ha
      rcases ha with rfl | ha
      · exact discover_fold_key_mono rest _ _ (key table)
      · exact ih ha _

/-- C6 counterexample: a subclass declaring `@handler("ping")` on a
method named `zz`. `dir(self)` sorts `zz` after `handle_ping`, so
discovery's dict assignment re-binds `"ping"` to the user method: the
dispatch table no longer maps `"ping"` to the built-in handler. -/
theorem discover_ping_overridden :
    alookup (_discover_handlers overrideAttrs) "ping" = some "Sub.zz" ∧
    "Sub.zz" ≠ "ModelClient.handle_ping" := by
  refine ⟨rfl, by decide⟩

/-- C6 (amended): the built-ins are always *registered* — whenever the
`dir(self)` listing contains the base class's callable `handle_ping`
and `handle_shutdown` attributes, the discovered dispatch table has
entries for `"ping"` and `"shutdown"` — but they are not protected:
a user-declared handler processed later under the same name replaces
the built-in binding (see the accompanying counterexample). -/
theorem builtins_always_registered (attrs : List Attr)
    (tp ts : String)
    (hp : (Attr.mk "handle_ping" true none tp) ∈ attrs)
    (hs : (Attr.mk "handle_shutdown" true none ts) ∈ attrs) :
    (alookup (_discover_handlers attrs) "ping").isSome = true ∧
    (alookup (_discover_handlers attrs) "shutdown").isSome = true := by
  constructor
  · exact discover_fold_key_of_mem attrs _ "ping" hp
      (fun table => discoverStep_handle_key table "ping" tp rfl rfl) []
  · exact discover_fold_key_of_mem attrs _ "shutdown" hs
      (fun table => discoverStep_handle_key table "shutdown" ts rfl rfl) []

/-- Witness for C6 (amended): on the plain base-class listing, both
built-ins are registered. -/
theorem builtins_always_registered_witness :
    (alookup (_discover_handlers baseAttrs) "ping").isSome = true ∧
    (alookup (_discover_handlers baseAttrs) "shutdown").isSome = true :=
  builtins_always_registered baseAttrs "ModelClient.handle_ping"
    "ModelClient.handle_shutdown" (by decide) (by decide)

/-- C1: evaluation of the unlocked channel at the failing interleaving.
`NamedPipeServer.request` performs `send` and `receive` as two separate
steps with no mutex (no `_lock` exists anywhere in `ipc.py`, although
`tests/test_ipc.py::test_lock_attribute_exists` asserts one). With
caller A requesting id 1 and caller B requesting id 2 against the echo
worker, the schedule send(A), worker, send(B), worker, recv(B), recv(A)
is enabled and delivers the reply to A's frame to caller B and vice
versa: replies are misrouted, so the calls do not form a serial
history matching replies one-for-one. -/
theorem unlocked_request_misroutes :
    concRun concInit [.sendA, .workerStep, .sendB, .workerStep,
        .recvB, .recvA] =
      some { toWorker := [], toServer := [],
             callerA := .got [("id", .num 2), ("thread", .num 2)],
             callerB := .got [("id", .num 1), ("thread", .num 1)] } :=
  rfl

/-! ### Discovery lemmas -/

/-- Characterisation of `isInit` by list append. -/
theorem isInit_iff (q p : List String) :
    isInit q p = true ↔ ∃ r, p = q ++ r := by
  induction q generalizing p with
  | nil => simp [isInit]
  | cons a as ih =>
      cases p with
      | nil =>
          simp only [isInit, List.cons_append, Bool.false_eq_true, false_iff,
            not_exists]
          intro r h
          exact List.noConfusion h
      | cons b bs =>
          simp only [isInit, Bool.and_eq_true, beq_iff_eq, ih,
            List.cons_append, List.cons.injEq]
          constructor
          · rintro ⟨rfl, r, rfl⟩; exact ⟨r, rfl, rfl⟩
          · rintro ⟨r, rfl, rfl⟩; exact ⟨rfl, r, rfl⟩

/-- A reached directory's path extends the scan path. -/
theorem reach_init (path : List String) (t : DirTree) (p : List String)
    (h : Reach path t p) : ∃ r, p = path ++ r := by
  induction h with
  | here path t => exact ⟨[], by simp⟩
  | child path t c p hmem hdesc hdot hr ih =>
      obtain ⟨r, hr2⟩ := ih
      exact ⟨c.dirName :: r, by simpa using hr2⟩

/-- Every component a reached path adds beyond the scan path names a
non-dot directory. -/
theorem reach_comps (path : List String) (t : DirTree) (p : List String)
    (h : Reach path t p) :
    ∀ comp ∈ p, comp ∈ path ∨ pyStartswith comp "." = false := by
  induction h with
  | here path t => exact fun comp hc => Or.inl hc
  | child path t c p hmem hdesc hdot hr ih =>
      intro comp hc
      rcases ih comp hc with h1 | h1
      · rw [List.mem_append] at h1
        rcases h1 with h1 | h1
        · exact Or.inl h1
        · rw [List.mem_singleton] at h1
          subst h1
          exact Or.inr hdot
      · exact Or.inr h1

/-- The members of `uniqNamesList` satisfy `uniqNames`. -/
theorem uniqNamesList_mem (cs : List DirTree) (c : DirTree)
    (h : uniqNamesList cs = true) (hc : c ∈ cs) : uniqNames c = true := by
  induction cs with
  | nil => simp at hc
  | cons b rest ih =>
      rw [uniqNamesList, Bool.and_eq_true] at h
      rw [List.mem_cons] at hc
      rcases hc with rfl | hc
      · exact h.1
      · exact ih h.2 hc

/-- Uniqueness `uniqNames` is inherited by children. -/
theorem uniqNames_child (t c : DirTree) (hu : uniqNames t = true)
    (hc : c ∈ t.children) : uniqNames c = true := by
  obtain ⟨nm, d, cs⟩ := t
  rw [uniqNames, Bool.and_eq_true] at hu
  exact uniqNamesList_mem cs c hu.2 hc

/-- Under distinct child names, `find?` by a member's name returns that
member. -/
theorem find?_name_of_mem_distinct (cs : List DirTree) (c : DirTree)
    (hd : distinctNames (cs.map (fun u => u.dirName)) = true) (hc : c ∈ cs) :
    cs.find? (fun u => u.dirName == c.dirName) = some c := by
  induction cs with
  | nil => simp at hc
  | cons b rest ih =>
      rw [List.map_cons, distinctNames, Bool.and_eq_true] at hd
      rw [List.mem_cons] at hc
      rcases hc with rfl | hc
      · exact List.find?_cons_of_pos _ (by simp)
      · by_cases hbn : b.dirName = c.dirName
        · exfalso
          have hmem : c.dirName ∈ rest.map (fun u => u.dirName) :=
            List.mem_map_of_mem _ hc
          rw [← hbn] at hmem
          have hni : b.dirName ∉ rest.map (fun u => u.dirName) := by
            have h0 := hd.1
            rw [Bool.not_eq_true'] at h0
            simpa using h0
          exact hni hmem
        · rw [List.find?_cons_of_neg _ (by simpa using hbn)]
          exact ih hd.2 hc

/-- Inside a reached subtree, every strict ancestor of the reached
directory (below the scan root) holds no descriptor file: the scan
never passed through a descriptor-bearing directory. -/
theorem reach_mid (path : List String) (t : DirTree) (p : List String)
    (h : Reach path t p) :
    uniqNames t = true →
    ∀ rel u, nodeAt t rel = some u → isInit (path ++ rel) p = true →
      path ++ rel ≠ p → u.desc = none := by
  induction h with
  | here path t =>
      intro hu rel u hnode hinit hne
      rw [isInit_iff] at hinit
      obtain ⟨r, hr⟩ := hinit
      have hlen := congrArg List.length hr
      simp only [List.length_append] at hlen
      have hrel : rel = [] := by
        cases rel with
        | nil => rfl
        | cons x xs => simp at hlen; omega
      subst hrel
      exact absurd (by simp) hne
  | child path t c p hmem hdesc hdot hr ih =>
      intro hu rel u hnode hinit hne
      cases rel with
      | nil =>
          rw [nodeAt] at hnode
          cases hnode
          exact hdesc
      | cons a rest =>
          obtain ⟨r2, hr2⟩ := reach_init _ _ _ hr
          rw [isInit_iff] at hinit
          obtain ⟨r1, hr1⟩ := hinit
          have hca : c.dirName = a := by
            rw [hr1] at hr2
            simp only [List.append_assoc, List.cons_append,
              List.singleton_append, List.nil_append] at hr2
            have := List.append_cancel_left hr2
            exact (List.cons.injEq _ _ _ _ ▸ this).1.symm
          have hfind : t.children.find? (fun v => v.dirName == a) = some c := by
            rw [← hca]
            obtain ⟨nm, d, cs⟩ := t
            rw [uniqNames, Bool.and_eq_true] at hu
            exact find?_name_of_mem_distinct cs c hu.1 hmem
          rw [nodeAt, hfind] at hnode
          refine ih (uniqNames_child t c hu hmem) rest u hnode ?_ ?_
          · rw [isInit_iff]
            refine ⟨r1, ?_⟩
            rw [hr1, hca]
            simp [List.append_assoc]
          · intro hcon
            apply hne
            rw [← hcon, hca]
            simp [List.append_assoc]

mutual

/-- Every path the scan visits was already visited or is reachable
from the scanned directory through non-dot, descriptor-free ancestors. -/
theorem scan_dir_visited (maxDepth : Nat) (recursive : Bool)
    (path : List String) (depth : Nat) (t : DirTree) (acc : ScanAcc) :
    ∀ q ∈ (scan_dir maxDepth recursive path depth t acc).visited,
      q ∈ acc.visited ∨ Reach path t q := by
  obtain ⟨nm, d, children⟩ := t
  intro q hq
  rw [scan_dir.eq_def] at hq
  simp only at hq
  split at hq
  · rcases List.mem_append.mp hq with h | h
    · exact Or.inl h
    · exact Or.inr (List.mem_singleton.mp h ▸ Reach.here path _)
  · split at hq
    · split at hq <;>
      · rcases List.mem_append.mp hq with h | h
        · exact Or.inl h
        · exact Or.inr (List.mem_singleton.mp h ▸ Reach.here path _)
    · rcases List.mem_append.mp hq with h | h
      · exact Or.inl h
      · exact Or.inr (List.mem_singleton.mp h ▸ Reach.here path _)
    · split at hq
      · rcases scan_children_visited maxDepth recursive path (depth + 1)
            children _ q hq with h | h
        · rcases List.mem_append.mp h with h2 | h2
          · exact Or.inl h2
          · exact Or.inr (List.mem_singleton.mp h2 ▸ Reach.here path _)
        · obtain ⟨c, hc, hdot, hreach⟩ := h
          exact Or.inr (Reach.child path _ c q hc rfl hdot hreach)
      · rcases List.mem_append.mp hq with h | h
        · exact Or.inl h
        · exact Or.inr (List.mem_singleton.mp h ▸ Reach.here path _)
termination_by sizeOf t

/-- The analogue for the children loop. -/
theorem scan_children_visited (maxDepth : Nat) (recursive : Bool)
    (path : List String) (depth : Nat) (cs : List DirTree) (acc : ScanAcc) :
    ∀ q ∈ (scan_children maxDepth recursive path depth cs acc).visited,
      q ∈ acc.visited ∨ ∃ c ∈ cs, pyStartswith c.dirName "." = false ∧
        Reach (path ++ [c.dirName]) c q := by
  match cs with
  | [] =>
      intro q hq
      rw [scan_children] at hq
      exact Or.inl hq
  | c :: rest =>
      intro q hq
      rw [scan_children] at hq
      rcases scan_children_visited maxDepth recursive path depth rest _ q hq
          with h | h
      · by_cases hdot : pyStartswith c.dirName "." = true
        · rw [if_pos hdot] at h
          exact Or.inl h
        · rw [if_neg hdot] at h
          rcases scan_dir_visited maxDepth recursive (path ++ [c.dirName])
              depth c acc q h with h2 | h2
          · exact Or.inl h2
          · exact Or.inr ⟨c, List.mem_cons_self c rest,
              Bool.not_eq_true _ ▸ hdot, h2⟩
      · obtain ⟨c', hc', hdot', hreach'⟩ := h
        exact Or.inr ⟨c', List.mem_cons_of_mem c hc', hdot', hreach'⟩
termination_by sizeOf cs

end

/-- Predicate `any` on the first component agrees with lookup presence. -/
theorem any_eq_lookup_isSome (t : List (String × α)) (k : String) :
    t.any (fun p => p.1 = k) = (alookup t k).isSome := by
  induction t with
  | nil => simp [alookup]
  | cons p rest ih =>
      by_cases h : p.1 = k <;> simp [alookup, h, ih]

/-- Looking a name up in the keep-first fold finds the value of its
first occurrence. -/
theorem foldKF_lookup (l : List (String × List String))
    (m : List (String × List String)) (k : String) :
    alookup (l.foldl stepKF m) k =
      (alookup m k).or ((l.find? (fun p => p.1 == k)).map Prod.snd) := by
  induction l generalizing m with
  | nil => simp
  | cons p rest ih =>
      rw [List.foldl_cons, ih]
      by_cases hk : p.1 = k
      · rw [List.find?_cons_of_pos _ (by simp [hk])]
        by_cases hm : (alookup m k).isSome = true
        · have hany : m.any (fun q => q.1 = p.1) = true := by
            rw [any_eq_lookup_isSome, hk]; exact hm
          rw [stepKF, if_pos hany]
          obtain ⟨w, hw⟩ := Option.isSome_iff_exists.mp hm
          rw [hw]; simp
        · have hany : ¬ m.any (fun q => q.1 = p.1) = true := by
            rw [any_eq_lookup_isSome, hk]; simpa using hm
          rw [stepKF, if_neg hany, alookup_append]
          have hmn : alookup m k = none := by
            rcases h : alookup m k with _ | w
            · rfl
            · rw [h] at hm; simp at hm
          rw [hmn]; simp [alookup, hk]
      · rw [List.find?_cons_of_neg _ (by simp [hk])]
        have hsk : alookup (stepKF m p) k = alookup m k := by
          rw [stepKF]; split
          · rfl
          · rw [alookup_append]
            rcases h : alookup m k with _ | w <;> simp [alookup, hk]
        rw [hsk]

mutual

/-- The scan maintains the keep-first invariant between the `models`
dict and the traversal-ordered load list. -/
theorem scan_dir_kf (maxDepth : Nat) (recursive : Bool) (t : DirTree) :
    ∀ (path : List String) (depth : Nat) (acc : ScanAcc), kfInv acc →
      kfInv (scan_dir maxDepth recursive path depth t acc) := by
  obtain ⟨nm, d, children⟩ := t
  intro path depth acc h
  rw [scan_dir.eq_def]
  simp only
  split
  · exact h
  · split
    · split
      · next hany =>
          unfold kfInv at h ⊢
          simp only
          rw [List.foldl_append, List.foldl_cons, List.foldl_nil, ← h,
            stepKF, if_pos hany]
      · next hany =>
          unfold kfInv at h ⊢
          simp only
          rw [List.foldl_append, List.foldl_cons, List.foldl_nil, ← h,
            stepKF, if_neg hany]
    · exact h
    · split
      · exact scan_children_kf maxDepth recursive children path (depth + 1)
          _ h
      · exact h
termination_by sizeOf t

theorem scan_children_kf (maxDepth : Nat) (recursive : Bool)
    (cs : List DirTree) :
    ∀ (path : List String) (depth : Nat) (acc : ScanAcc), kfInv acc →
      kfInv (scan_children maxDepth recursive path depth cs acc) := by
  match cs with
  | [] =>
      intro path depth acc h
      rw [scan_children]; exact h
  | c :: rest =>
      intro path depth acc h
      rw [scan_children]
      refine scan_children_kf maxDepth recursive rest path depth _ ?_
      by_cases hdot : pyStartswith c.dirName "." = true
      · rw [if_pos hdot]; exact h
      · rw [if_neg hdot]
        exact scan_dir_kf maxDepth recursive c (path ++ [c.dirName]) depth
          acc h
termination_by sizeOf cs

end

/-- C9: for every scanned tree (any `recursive` / `max_depth`
setting): (1) the scan never enters a dot-prefixed directory — every
component of every visited path names a non-dot directory; (2) it
never descends below a directory that contains a descriptor file —
every strict ancestor (below the root) of a visited directory is
descriptor-free; (3) when two loaded descriptors share a model name,
the kept entry is the first one in traversal order — lookup in the
result equals lookup of the first occurrence in the traversal-ordered
load list, so later duplicates are skipped. -/
theorem discovery_scan_properties (t : DirTree) (recursive : Bool)
    (maxDepth : Nat) :
    (∀ p ∈ (discover_models recursive maxDepth t).visited,
      ∀ comp ∈ p, pyStartswith comp "." = false) ∧
    (uniqNames t = true →
      ∀ p ∈ (discover_models recursive maxDepth t).visited,
        ∀ q u, isInit q p = true → q ≠ p → nodeAt t q = some u →
          u.desc = none) ∧
    (∀ n, alookup (discover_models recursive maxDepth t).models n =
      ((discover_models recursive maxDepth t).loadedOrder.find?
        (fun pr => pr.1 == n)).map Prod.snd) := by
  refine ⟨?_, ?_, ?_⟩
  · intro p hp comp hc
    rcases scan_dir_visited maxDepth recursive [] 0 t _ p hp with h | h
    · simp at h
    · rcases reach_comps [] t p h comp hc with h2 | h2
      · simp at h2
      · exact h2
  · intro hu p hp q u hinit hne hnode
    rcases scan_dir_visited maxDepth recursive [] 0 t _ p hp with h | h
    · simp at h
    · exact reach_mid [] t p h hu q u hnode hinit hne
  · intro n
    have hkf : (discover_models recursive maxDepth t).models =
        (discover_models recursive maxDepth t).loadedOrder.foldl stepKF [] :=
      scan_dir_kf maxDepth recursive t [] 0 _ rfl
    rw [hkf, foldKF_lookup]
    simp [alookup]

/-- Witness for C9, on a concrete tree holding a model at `a`, a
model inside the never-entered `.hidden`, and a duplicate of `m1` at
`b/c`: the visited path `["b", "c"]` has only non-dot components, its
strict ancestor `["b"]` holds no descriptor, and the name `m1` maps
to the first loaded occurrence (directory `["a"]`). -/
theorem discovery_scan_properties_witness :
    pyStartswith "b" "." = false ∧
    (DirTree.mk "b" none [⟨"c", some (some "m1"), []⟩]).desc = none ∧
    alookup (discover_models true 3 demoTree).models "m1" =
      ((discover_models true 3 demoTree).loadedOrder.find?
        (fun pr => pr.1 == "m1")).map Prod.snd :=
  ⟨(discovery_scan_properties demoTree true 3).1 ["b", "c"]
    (by simp [discover_models, scan_dir, scan_children, demoTree,
      pyStartswith, charsStart]) "b" (by simp),
   (discovery_scan_properties demoTree true 3).2.1
    (by simp [uniqNames, uniqNamesList, distinctNames, demoTree])
    ["b", "c"]
    (by simp [discover_models, scan_dir, scan_children, demoTree,
      pyStartswith, charsStart])
    ["b"] (DirTree.mk "b" none [⟨"c", some (some "m1"), []⟩])
    (by simp [isInit]) (by simp) (by simp [nodeAt, demoTree]),
   (discovery_scan_properties demoTree true 3).2.2 "m1"⟩

end PyModelServe
